import Mathlib

/-!
Verification of the MusicFlow step-sequencer core.

This file is a shallow embedding of the MusicFlow sources
(`public/sequencer.js`, `public/effects.js`, the audio-engine module and
`app.js`).  JavaScript numbers are modelled by `ℚ` (all arithmetic the
sequencer, mixer and effects code performs is exact on rationals); the
equal-temperament frequency computation, which genuinely uses a real
exponential, is modelled over `ℝ`.  JavaScript `Map`s and plain objects
used as dictionaries are modelled by association lists whose observable
is `List.lookup` (first matching key), and in-place mutation of a single
looked-up object is modelled by rebuilding the list at the first matching
entry.  A JavaScript function that can return `null` or throw is modelled
with `Option` / an explicit success flag.
-/

/-- One slot of a 16-step pattern (`createEmptyPattern` element shape). -/
structure Step where
  active : Bool
  velocity : ℚ
  note : String
  duration : ℚ
  deriving DecidableEq

/-- A per-track step sequence (a JS array of step objects). -/
abbrev TrackSteps := List Step

/-- A sequencer track (`createDefaultTracks` element shape).  The `pattern`
field is the vestigial per-track array the constructor attaches; playback and
editing go through the pattern store instead. -/
structure Track where
  id : String
  name : String
  instrument : String
  volume : ℚ
  muted : Bool
  solo : Bool
  pattern : TrackSteps
  deriving DecidableEq

/-- An entry of the pattern store: a pattern id groups one step sequence per
track id (`createDefaultPattern` shape).  `tracks` models the plain JS object
keyed by track id. -/
structure Pattern where
  id : String
  name : String
  tracks : List (String × TrackSteps)
  deriving DecidableEq

/-- The `Sequencer` instance state.  `schedulerOn` models
`schedulerInterval !== null`; UI references are omitted (they carry no
sequencer state). -/
structure SeqState where
  bpm : ℚ
  stepsPerBeat : ℚ
  totalSteps : ℕ
  currentStep : ℕ
  isPlaying : Bool
  isRecording : Bool
  stepDuration : ℚ
  nextStepTime : ℚ
  schedulerOn : Bool
  tracks : List Track
  patterns : List (String × Pattern)
  activePattern : Option String
  deriving DecidableEq

/-- `createEmptyPattern`: `totalSteps` inactive steps with the default
velocity 0.8, note C4 and duration 1. -/
def createEmptyPattern (totalSteps : ℕ) : TrackSteps :=
  List.replicate totalSteps { active := false, velocity := 4/5, note := "C4", duration := 1 }

/-- `createDefaultTracks`: the four default tracks, each holding a fresh
empty 16-step pattern. -/
def createDefaultTracks : List Track :=
  [ { id := "track-1", name := "Piano", instrument := "piano", volume := 4/5,
      muted := false, solo := false, pattern := createEmptyPattern 16 },
    { id := "track-2", name := "Drums", instrument := "drums", volume := 9/10,
      muted := false, solo := false, pattern := createEmptyPattern 16 },
    { id := "track-3", name := "Bass", instrument := "bass", volume := 7/10,
      muted := false, solo := false, pattern := createEmptyPattern 16 },
    { id := "track-4", name := "Synth", instrument := "synth", volume := 3/5,
      muted := false, solo := false, pattern := createEmptyPattern 16 } ]

/-- `createDefaultPattern`: the single initial pattern-store entry, mapping
every default track id to a fresh empty pattern. -/
def createDefaultPattern : Pattern :=
  { id := "default-pattern", name := "Default Pattern",
    tracks := createDefaultTracks.map (fun t => (t.id, createEmptyPattern 16)) }

/-- The `Sequencer` constructor followed by `init()` (`this.bpm = 120`,
`stepsPerBeat = 4`, `totalSteps = 16`, `stepDuration = 60 / (bpm * stepsPerBeat)`,
default tracks and the default pattern installed and made active). -/
def initialSequencer : SeqState :=
  { bpm := 120, stepsPerBeat := 4, totalSteps := 16, currentStep := 0,
    isPlaying := false, isRecording := false,
    stepDuration := 60 / (120 * 4), nextStepTime := 0, schedulerOn := false,
    tracks := createDefaultTracks,
    patterns := [("default-pattern", createDefaultPattern)],
    activePattern := some "default-pattern" }

/-- `Sequencer.setBPM`: `this.bpm = Math.max(60, Math.min(200, bpm))`;
`this.stepDuration = 60 / (this.bpm * this.stepsPerBeat)`. -/
def Sequencer.setBPM (s : SeqState) (bpm : ℚ) : SeqState :=
  let b := max 60 (min 200 bpm)
  { s with bpm := b, stepDuration := 60 / (b * s.stepsPerBeat) }

/-- `Sequencer.setTrackVolume`: find the track and clamp the volume to
[0, 1] (`Math.max(0, Math.min(1, volume))`); unknown ids are a no-op. -/
def Sequencer.setTrackVolume (s : SeqState) (trackId : String) (volume : ℚ) : SeqState :=
  { s with tracks := s.tracks.map (fun t =>
      if t.id == trackId then { t with volume := max 0 (min 1 volume) } else t) }

/-- `Sequencer.toggleTrackMute`: find the track and negate its `muted` flag;
unknown ids are a no-op.  (The JS mutates the single object `find` returned;
since only the id is compared, mapping over all entries with the id test is
observationally the same.) -/
def Sequencer.toggleTrackMute (s : SeqState) (trackId : String) : SeqState :=
  { s with tracks := s.tracks.map (fun t =>
      if t.id == trackId then { t with muted := !t.muted } else t) }

/-- In-place mutation of the first list entry satisfying `p`, as performed on
the object returned by `Array.prototype.find`. -/
def updateFirstTrack (p : Track → Bool) (f : Track → Track) : List Track → List Track
  | [] => []
  | t :: ts => if p t then f t :: ts else t :: updateFirstTrack p f ts

/-- `Sequencer.toggleTrackSolo`: find the track; negate its `solo` flag; if it
is now soloed, set `muted := true` on every track with a different id (the
soloed track's own `muted` flag is not written); otherwise set
`muted := false` on every track. -/
def Sequencer.toggleTrackSolo (s : SeqState) (trackId : String) : SeqState :=
  match s.tracks.find? (fun t => t.id == trackId) with
  | none => s
  | some tr =>
    let newSolo := !tr.solo
    let tracks1 := updateFirstTrack (fun t => t.id == trackId)
      (fun t => { t with solo := newSolo }) s.tracks
    if newSolo then
      { s with tracks := tracks1.map (fun t =>
          if t.id == trackId then t else { t with muted := true }) }
    else
      { s with tracks := tracks1.map (fun t => { t with muted := false }) }

/-- In-place mutation of the value of the first association-list entry with
the given key (mutation of the object a JS `Map.get` / property read
returned). -/
def updateAssoc {β : Type} : List (String × β) → String → (β → β) → List (String × β)
  | [], _, _ => []
  | (k, v) :: rest, key, f =>
    if k == key then (k, f v) :: rest else (k, v) :: updateAssoc rest key f

/-- In-place mutation of the element at one index of a JS array
(`pattern[stepIndex].active = ...`). -/
def modifyIdx {α : Type} : List α → ℕ → (α → α) → List α
  | [], _, _ => []
  | a :: as, 0, f => f a :: as
  | a :: as, n + 1, f => a :: modifyIdx as n f

/-- The step array `Sequencer.getPatternForTrack` aliases into the pattern
store: `this.patterns.get(this.activePattern)?.tracks[trackId]`.  `none` means
the source falls back to `createEmptyPattern()`, i.e. it returns a fresh
throwaway array that is not stored anywhere. -/
def storedSteps (s : SeqState) (trackId : String) : Option TrackSteps :=
  match s.activePattern with
  | none => none
  | some pid =>
    match s.patterns.lookup pid with
    | none => none
    | some pat => pat.tracks.lookup trackId

/-- The stored step addressed by `(trackId, stepIndex)` through the active
pattern, or `none` when the address does not resolve to stored state. -/
def storedStep (s : SeqState) (trackId : String) (stepIndex : ℤ) : Option Step :=
  match storedSteps s trackId with
  | none => none
  | some steps => if 0 ≤ stepIndex then steps.get? stepIndex.toNat else none

/-- `Sequencer.toggleStep`: fetch the active pattern's step array for the
track and negate `pattern[stepIndex].active` when that element exists.  When
`getPatternForTrack` fell back to a fresh `createEmptyPattern()` array (track
or pattern not in the store), or `stepIndex` is out of bounds
(`pattern[stepIndex]` is `undefined`, hence falsy), nothing stored changes. -/
def Sequencer.toggleStep (s : SeqState) (trackId : String) (stepIndex : ℤ) : SeqState :=
  match s.activePattern with
  | none => s
  | some pid =>
    match s.patterns.lookup pid with
    | none => s
    | some pat =>
      match pat.tracks.lookup trackId with
      | none => s
      | some steps =>
        if 0 ≤ stepIndex ∧ stepIndex < (steps.length : ℤ) then
          let steps1 := modifyIdx steps stepIndex.toNat (fun st => { st with active := !st.active })
          { s with patterns := updateAssoc s.patterns pid (fun p =>
              { p with tracks := updateAssoc p.tracks trackId (fun _ => steps1) }) }
        else s

section AssocLemmas

variable {β : Type}

theorem lookup_updateAssoc (l : List (String × β)) (k : String) (f : β → β) :
    (updateAssoc l k f).lookup k = (l.lookup k).map f := by
  induction l with
  | nil => rfl
  | cons kv rest ih =>
    obtain ⟨a, b⟩ := kv
    by_cases h : a = k
    · subst h
      simp [updateAssoc, List.lookup]
    · have hb : (a == k) = false := beq_eq_false_iff_ne.mpr h
      have hb' : (k == a) = false := beq_eq_false_iff_ne.mpr (Ne.symm h)
      simp [updateAssoc, List.lookup, hb, hb', ih]

theorem mem_of_lookup_eq_some {l : List (String × β)} {k : String} {v : β}
    (h : l.lookup k = some v) : (k, v) ∈ l := by
  induction l with
  | nil => simp [List.lookup] at h
  | cons kv rest ih =>
    obtain ⟨a, b⟩ := kv
    by_cases hk : k = a
    · subst hk
      simp [List.lookup] at h
      simp [h]
    · have hb : (k == a) = false := beq_eq_false_iff_ne.mpr hk
      simp [List.lookup, hb] at h
      exact List.mem_cons_of_mem _ (ih h)

theorem length_modifyIdx {α : Type} (l : List α) (n : ℕ) (f : α → α) :
    (modifyIdx l n f).length = l.length := by
  induction l generalizing n with
  | nil => rfl
  | cons a as ih =>
    cases n with
    | zero => rfl
    | succ m => simp [modifyIdx, ih]

theorem get?_modifyIdx_self {α : Type} (l : List α) (n : ℕ) (f : α → α) :
    (modifyIdx l n f).get? n = (l.get? n).map f := by
  induction l generalizing n with
  | nil => rfl
  | cons a as ih =>
    cases n with
    | zero => rfl
    | succ m => simpa [modifyIdx] using ih m

end AssocLemmas

/-- C7: `setBPM(bpm)` clamps the stored BPM to [60, 200] and recomputes
`stepDuration = 60 / (bpm * stepsPerBeat)` with `stepsPerBeat` fixed at 4; in
particular `setBPM(150)` on the freshly constructed sequencer yields
`stepDuration = 60 / (150 * 4) = 0.1` exactly. -/
theorem setBPM_spec (s : SeqState) (bpm : ℚ) (hspb : s.stepsPerBeat = 4) :
    (Sequencer.setBPM s bpm).bpm = max 60 (min 200 bpm)
    ∧ (Sequencer.setBPM s bpm).stepDuration = 60 / (max 60 (min 200 bpm) * 4)
    ∧ (Sequencer.setBPM initialSequencer 150).stepDuration = 1/10 := by
  refine ⟨rfl, ?_, by norm_num [Sequencer.setBPM, initialSequencer]⟩
  simp [Sequencer.setBPM, hspb]

/-- Witness for `setBPM_spec` at the freshly constructed sequencer and
`bpm = 150`. -/
theorem setBPM_spec_witness :
    initialSequencer.stepsPerBeat = 4
    ∧ ((Sequencer.setBPM initialSequencer 150).bpm = max 60 (min 200 150)
      ∧ (Sequencer.setBPM initialSequencer 150).stepDuration = 60 / (max 60 (min 200 150) * 4)
      ∧ (Sequencer.setBPM initialSequencer 150).stepDuration = 1/10) :=
  ⟨rfl, setBPM_spec initialSequencer 150 rfl⟩

/-- C8: double-toggling any step returns the addressed stored step's `active`
flag to its original value, for every sequencer state, track id and (integer)
step index — including addresses that do not resolve to stored state, where
both toggles are no-ops on the store. -/
theorem toggleStep_double_toggle (s : SeqState) (trackId : String) (stepIndex : ℤ) :
    (storedStep (Sequencer.toggleStep (Sequencer.toggleStep s trackId stepIndex) trackId stepIndex)
        trackId stepIndex).map Step.active
      = (storedStep s trackId stepIndex).map Step.active := by
  rcases hap : s.activePattern with _ | pid
  · simp [Sequencer.toggleStep, hap]
  rcases hpat : s.patterns.lookup pid with _ | pat
  · simp [Sequencer.toggleStep, hap, hpat]
  rcases hsteps : pat.tracks.lookup trackId with _ | steps
  · simp [Sequencer.toggleStep, hap, hpat, hsteps]
  by_cases hb : 0 ≤ stepIndex ∧ stepIndex < (steps.length : ℤ)
  · -- the toggle lands on stored state
    set f : Step → Step := fun st => { st with active := !st.active } with hf
    set steps1 := modifyIdx steps stepIndex.toNat f with hsteps1
    have h1 : Sequencer.toggleStep s trackId stepIndex
        = { s with patterns := updateAssoc s.patterns pid (fun p =>
            { p with tracks := updateAssoc p.tracks trackId (fun _ => steps1) }) } := by
      simp [Sequencer.toggleStep, hap, hpat, hsteps, hb]
    set s1 := Sequencer.toggleStep s trackId stepIndex with hs1
    have hap1 : s1.activePattern = some pid := by rw [h1]; exact hap
    have hpat1 : s1.patterns.lookup pid
        = some { pat with tracks := updateAssoc pat.tracks trackId (fun _ => steps1) } := by
      rw [h1]
      show (updateAssoc s.patterns pid _).lookup pid = _
      rw [lookup_updateAssoc, hpat]
      rfl
    have hsteps1' : (updateAssoc pat.tracks trackId (fun _ => steps1)).lookup trackId
        = some steps1 := by
      rw [lookup_updateAssoc, hsteps]
      rfl
    have hlen : steps1.length = steps.length := by
      rw [hsteps1]; exact length_modifyIdx steps _ f
    have hb1 : 0 ≤ stepIndex ∧ stepIndex < (steps1.length : ℤ) := by
      refine ⟨hb.1, ?_⟩
      rw [hlen]
      exact hb.2
    set steps2 := modifyIdx steps1 stepIndex.toNat f with hsteps2
    have h2 : Sequencer.toggleStep s1 trackId stepIndex
        = { s1 with patterns := updateAssoc s1.patterns pid (fun p =>
            { p with tracks := updateAssoc p.tracks trackId (fun _ => steps2) }) } := by
      simp [Sequencer.toggleStep, hap1, hpat1, hsteps1', hb1, hsteps2]
    -- read the flag back through the store
    have hread : ∀ s' : SeqState, s'.activePattern = some pid →
        ∀ pat', s'.patterns.lookup pid = some pat' →
        ∀ st', pat'.tracks.lookup trackId = some st' →
        storedStep s' trackId stepIndex = if 0 ≤ stepIndex then st'.get? stepIndex.toNat else none := by
      intro s' h1' pat' h2' st' h3'
      simp [storedStep, storedSteps, h1', h2', h3']
    have hr2 : storedStep (Sequencer.toggleStep s1 trackId stepIndex) trackId stepIndex
        = if 0 ≤ stepIndex then steps2.get? stepIndex.toNat else none := by
      apply hread
      · rw [h2]; exact hap1
      · rw [h2]
        show (updateAssoc s1.patterns pid _).lookup pid = _
        rw [lookup_updateAssoc, hpat1]
        rfl
      · rw [lookup_updateAssoc, hsteps1']
        rfl
    have hr0 : storedStep s trackId stepIndex
        = if 0 ≤ stepIndex then steps.get? stepIndex.toNat else none := by
      apply hread s hap pat hpat steps hsteps
    rw [hr2, hr0, if_pos hb.1, if_pos hb.1, hsteps2, hsteps1,
      get?_modifyIdx_self, get?_modifyIdx_self]
    rcases steps.get? stepIndex.toNat with _ | st
    · rfl
    · simp [hf]
  · -- the toggle is a no-op on the store
    have hid : Sequencer.toggleStep s trackId stepIndex = s := by
      simp [Sequencer.toggleStep, hap, hpat, hsteps, hb]
    rw [hid, hid]

/-- Invariant of §3 of the spec: every step sequence held by the pattern store
has exactly 16 steps.  (Stated over all stored entries, hence decidable on
concrete states.) -/
def StepCountInv (s : SeqState) : Prop :=
  ∀ pe ∈ s.patterns, ∀ te ∈ pe.2.tracks, (te.2 : TrackSteps).length = 16

instance (s : SeqState) : Decidable (StepCountInv s) := by
  unfold StepCountInv
  infer_instance

/-- C9: `toggleStep` is a total no-op on the sequencer state (and raises no
error) whenever the step index lies outside [0, 15] (given the 16-step
invariant of the pattern store), and likewise whenever the track id has no
entry in the active pattern — there the mutation lands on the freshly created
throwaway pattern, never on the pattern store. -/
theorem toggleStep_frame (s : SeqState) (trackId : String) (stepIndex : ℤ) :
    ((stepIndex < 0 ∨ 15 < stepIndex) → StepCountInv s →
      Sequencer.toggleStep s trackId stepIndex = s)
    ∧ (storedSteps s trackId = none → Sequencer.toggleStep s trackId stepIndex = s) := by
  constructor
  · intro hrange hinv
    rcases hap : s.activePattern with _ | pid
    · simp [Sequencer.toggleStep, hap]
    rcases hpat : s.patterns.lookup pid with _ | pat
    · simp [Sequencer.toggleStep, hap, hpat]
    rcases hsteps : pat.tracks.lookup trackId with _ | steps
    · simp [Sequencer.toggleStep, hap, hpat, hsteps]
    have hlen : steps.length = 16 :=
      hinv _ (mem_of_lookup_eq_some hpat) _ (mem_of_lookup_eq_some hsteps)
    have hb : ¬(0 ≤ stepIndex ∧ stepIndex < (steps.length : ℤ)) := by
      rw [hlen]
      rcases hrange with h | h
      · intro hc; omega
      · intro hc; omega
    simp [Sequencer.toggleStep, hap, hpat, hsteps, hb]
  · intro hnone
    rcases hap : s.activePattern with _ | pid
    · simp [Sequencer.toggleStep, hap]
    rcases hpat : s.patterns.lookup pid with _ | pat
    · simp [Sequencer.toggleStep, hap, hpat]
    have hsteps : pat.tracks.lookup trackId = none := by
      simpa [storedSteps, hap, hpat] using hnone
    simp [Sequencer.toggleStep, hap, hpat, hsteps]

/-- Witness for `toggleStep_frame`: on the freshly constructed sequencer,
index 20 (out of range) and the unknown track id `track-9` both leave the
state exactly as it was. -/
theorem toggleStep_frame_witness :
    ((20 : ℤ) < 0 ∨ (15 : ℤ) < 20) ∧ StepCountInv initialSequencer
    ∧ Sequencer.toggleStep initialSequencer "track-1" 20 = initialSequencer
    ∧ storedSteps initialSequencer "track-9" = none
    ∧ Sequencer.toggleStep initialSequencer "track-9" 3 = initialSequencer :=
  ⟨Or.inr (by decide), by decide,
    (toggleStep_frame initialSequencer "track-1" 20).1 (Or.inr (by decide)) (by decide),
    by decide,
    (toggleStep_frame initialSequencer "track-9" 3).2 (by decide)⟩

section SoloLemmas

theorem find?_updateFirstTrack (p : Track → Bool) (f : Track → Track)
    (hpf : ∀ t, p (f t) = p t) :
    ∀ {l : List Track} {tr : Track}, l.find? p = some tr →
      (updateFirstTrack p f l).find? p = some (f tr) := by
  intro l
  induction l with
  | nil => intro tr h; simp [List.find?] at h
  | cons a as ih =>
    intro tr h
    by_cases hpa : p a = true
    · rw [List.find?_cons_of_pos _ hpa] at h
      injection h with h
      subst h
      unfold updateFirstTrack
      rw [if_pos hpa]
      exact List.find?_cons_of_pos _ (by rw [hpf]; exact hpa)
    · rw [List.find?_cons_of_neg _ hpa] at h
      unfold updateFirstTrack
      rw [if_neg hpa]
      rw [List.find?_cons_of_neg _ hpa]
      exact ih h

theorem find?_map_preserving (p : Track → Bool) (g : Track → Track)
    (hpg : ∀ t, p (g t) = p t) :
    ∀ {l : List Track} {tr : Track}, l.find? p = some tr →
      (l.map g).find? p = some (g tr) := by
  intro l
  induction l with
  | nil => intro tr h; simp [List.find?] at h
  | cons a as ih =>
    intro tr h
    by_cases hpa : p a = true
    · rw [List.find?_cons_of_pos _ hpa] at h
      injection h with h
      subst h
      simpa using List.find?_cons_of_pos (p := p) ((as.map g)) (by rw [hpg]; exact hpa)
    · rw [List.find?_cons_of_neg _ hpa] at h
      simp only [List.map_cons]
      rw [List.find?_cons_of_neg _ (by rw [hpg]; exact hpa)]
      exact ih h

end SoloLemmas

/-- Counterexample to C2 as stated: on a state whose track `t1` is explicitly
muted (and not soloed), `toggleTrackSolo("t1")` engages the solo but does NOT
leave `t1` unmuted — the source never writes the soloed track's own `muted`
flag, so `t1` stays muted. -/
def soloCexTrackA : Track :=
  { id := "t1", name := "A", instrument := "piano", volume := 1,
    muted := true, solo := false, pattern := [] }

/-- Second track of the counterexample state. -/
def soloCexTrackB : Track :=
  { id := "t2", name := "B", instrument := "bass", volume := 1,
    muted := false, solo := false, pattern := [] }

/-- A sequencer state with an explicitly muted, unsoloed track `t1`. -/
def soloCexState : SeqState :=
  { bpm := 120, stepsPerBeat := 4, totalSteps := 16, currentStep := 0,
    isPlaying := false, isRecording := false,
    stepDuration := 1/8, nextStepTime := 0, schedulerOn := false,
    tracks := [soloCexTrackA, soloCexTrackB],
    patterns := [], activePattern := none }

/-- C2 counterexample: `t1` starts with `solo = false` (and `muted = true`);
after `toggleTrackSolo("t1")` its solo flag is set but it is still muted, so
the operation does not "leave A unmuted" as the claim states. -/
theorem toggleTrackSolo_counterexample :
    soloCexTrackA.solo = false
    ∧ (((Sequencer.toggleTrackSolo soloCexState "t1").tracks.find?
        (fun t => t.id == "t1")).map Track.solo = some true)
    ∧ (((Sequencer.toggleTrackSolo soloCexState "t1").tracks.find?
        (fun t => t.id == "t1")).map Track.muted = some true) := by
  refine ⟨rfl, ?_, ?_⟩ <;> decide

/-- Unfolding of `toggleTrackSolo` when the found track is not soloed: the
solo is engaged and every other track muted. -/
theorem toggleTrackSolo_engage (s : SeqState) (trackId : String) (tr : Track)
    (hfind : s.tracks.find? (fun t => t.id == trackId) = some tr)
    (hsolo : tr.solo = false) :
    Sequencer.toggleTrackSolo s trackId
      = { s with tracks := (updateFirstTrack (fun t => t.id == trackId) (fun t => { t with solo := true }) s.tracks).map (fun t => if t.id == trackId then t else { t with muted := true }) } := by
  unfold Sequencer.toggleTrackSolo
  rw [hfind]
  simp [hsolo]

/-- Unfolding of `toggleTrackSolo` when the found track is currently soloed:
the solo is cleared and every track unmuted. -/
theorem toggleTrackSolo_clear (s : SeqState) (trackId : String) (tr : Track)
    (hfind : s.tracks.find? (fun t => t.id == trackId) = some tr)
    (hsolo : tr.solo = true) :
    Sequencer.toggleTrackSolo s trackId
      = { s with tracks := (updateFirstTrack (fun t => t.id == trackId) (fun t => { t with solo := false }) s.tracks).map (fun t => { t with muted := false }) } := by
  unfold Sequencer.toggleTrackSolo
  rw [hfind]
  simp [hsolo]

/-- C2 amended: with `A.solo` initially false, `toggleTrackSolo(A)` sets
`A.solo` to true, mutes every track other than A, and leaves A's own `muted`
flag unchanged (so A is unmuted only if it already was); a second
`toggleTrackSolo(A)` clears the solo and sets `muted = false` on every track,
including tracks that were explicitly muted before the solo was engaged. -/
theorem toggleTrackSolo_amended (s : SeqState) (trackId : String) (tr : Track)
    (hfind : s.tracks.find? (fun t => t.id == trackId) = some tr)
    (hsolo : tr.solo = false) :
    (Sequencer.toggleTrackSolo s trackId).tracks.find? (fun t => t.id == trackId)
        = some { tr with solo := true }
    ∧ (∀ t ∈ (Sequencer.toggleTrackSolo s trackId).tracks,
        (t.id == trackId) = false → t.muted = true)
    ∧ (∀ t ∈ (Sequencer.toggleTrackSolo (Sequencer.toggleTrackSolo s trackId) trackId).tracks,
        t.muted = false)
    ∧ ((Sequencer.toggleTrackSolo (Sequencer.toggleTrackSolo s trackId) trackId).tracks.find?
        (fun t => t.id == trackId)).map Track.solo = some false := by
  have hptr : (tr.id == trackId) = true := by
    have h := List.find?_some hfind
    simpa using h
  have hs1 := toggleTrackSolo_engage s trackId tr hfind hsolo
  have hfind1 : (Sequencer.toggleTrackSolo s trackId).tracks.find? (fun t => t.id == trackId)
      = some { tr with solo := true } := by
    rw [hs1]
    have h1 := find?_updateFirstTrack (fun t => t.id == trackId)
      (fun t => { t with solo := true }) (fun t => rfl) hfind
    have h2 := find?_map_preserving (fun t => t.id == trackId)
      (fun t => if t.id == trackId then t else { t with muted := true })
      (fun t => by by_cases h : (t.id == trackId) = true <;> simp [h]) h1
    rw [h2]
    simp [hptr]
  have hs2 := toggleTrackSolo_clear (Sequencer.toggleTrackSolo s trackId) trackId
    { tr with solo := true } hfind1 rfl
  refine ⟨hfind1, ?_, ?_, ?_⟩
  · intro t ht hne
    rw [hs1] at ht
    simp only [List.mem_map] at ht
    obtain ⟨u, _, hu⟩ := ht
    by_cases h : (u.id == trackId) = true
    · rw [← hu] at hne
      simp [h] at hne
    · rw [← hu]
      simp [h]
  · intro t ht
    rw [hs2] at ht
    simp only [List.mem_map] at ht
    obtain ⟨u, _, hu⟩ := ht
    rw [← hu]
  · rw [hs2]
    have h1 := find?_updateFirstTrack (fun t => t.id == trackId)
      (fun t => { t with solo := false }) (fun t => rfl) hfind1
    have h2 := find?_map_preserving (fun t => t.id == trackId)
      (fun t => { t with muted := false }) (fun t => rfl) h1
    rw [h2]
    rfl


/-- Witness for `toggleTrackSolo_amended` on the two-track state: the
hypotheses hold for `t1` and the conclusions follow by the theorem. -/
theorem toggleTrackSolo_amended_witness :
    soloCexState.tracks.find? (fun t => t.id == "t1") = some soloCexTrackA
    ∧ soloCexTrackA.solo = false
    ∧ ((Sequencer.toggleTrackSolo soloCexState "t1").tracks.find? (fun t => t.id == "t1")
        = some { soloCexTrackA with solo := true }
      ∧ (∀ t ∈ (Sequencer.toggleTrackSolo soloCexState "t1").tracks,
          (t.id == "t1") = false → t.muted = true)
      ∧ (∀ t ∈ (Sequencer.toggleTrackSolo (Sequencer.toggleTrackSolo soloCexState "t1") "t1").tracks,
          t.muted = false)
      ∧ ((Sequencer.toggleTrackSolo (Sequencer.toggleTrackSolo soloCexState "t1") "t1").tracks.find?
          (fun t => t.id == "t1")).map Track.solo = some false) :=
  ⟨by decide, rfl, toggleTrackSolo_amended soloCexState "t1" soloCexTrackA (by decide) rfl⟩

/-- `Sequencer.play`: no-op if already playing; else start from step 0 with
`nextStepTime` seeded to the current audio-clock time and the lookahead
interval started.  (`audioEngine.startPlayback()` touches only engine state,
modelled separately.) -/
def Sequencer.play (s : SeqState) (currentTime : ℚ) : SeqState :=
  if s.isPlaying then s
  else { s with isPlaying := true, currentStep := 0, nextStepTime := currentTime,
                schedulerOn := true }

/-- `Sequencer.pause`: clear `isPlaying` and halt the lookahead interval. -/
def Sequencer.pause (s : SeqState) : SeqState :=
  { s with isPlaying := false, schedulerOn := false }

/-- `Sequencer.stop`: clear `isPlaying`, reset `currentStep` to 0 and halt the
lookahead interval.  (`audioEngine.stopPlayback()` is modelled at the
transport level below.) -/
def Sequencer.stop (s : SeqState) : SeqState :=
  { s with isPlaying := false, currentStep := 0, schedulerOn := false }

/-- `Sequencer.toggleRecord`: negate the recording flag. -/
def Sequencer.toggleRecord (s : SeqState) : SeqState :=
  { s with isRecording := !s.isRecording }

/-- One pass of the `while (nextStepTime <= currentTime + 0.1)` lookahead
loop of `Sequencer.scheduleSteps`, fuel-indexed: each drained step triggers
playback (`playStep` writes no sequencer state), advances
`currentStep = (currentStep + 1) % totalSteps` and adds `stepDuration` to
`nextStepTime`.  The fuel covers every finite unrolling of the loop (the JS
loop terminates because `stepDuration > 0`). -/
def scheduleStepsAux (currentTime : ℚ) : ℕ → SeqState → SeqState
  | 0, s => s
  | fuel + 1, s =>
    if s.nextStepTime ≤ currentTime + 1/10 then
      scheduleStepsAux currentTime fuel
        { s with currentStep := (s.currentStep + 1) % s.totalSteps,
                 nextStepTime := s.nextStepTime + s.stepDuration }
    else s

/-- `Sequencer.scheduleSteps`, invoked by the 10 ms interval with the current
audio-clock time. -/
def Sequencer.scheduleSteps (s : SeqState) (currentTime : ℚ) (fuel : ℕ) : SeqState :=
  scheduleStepsAux currentTime fuel s

/-- The public operations of the playing sequencer (the transport, tempo,
pattern-editing, mixer and lookahead-loop entry points of `sequencer.js`). -/
inductive SeqOp : Type
  | play (currentTime : ℚ)
  | pause
  | stop
  | toggleRecord
  | setBPM (bpm : ℚ)
  | setTrackVolume (trackId : String) (volume : ℚ)
  | toggleTrackMute (trackId : String)
  | toggleTrackSolo (trackId : String)
  | toggleStep (trackId : String) (stepIndex : ℤ)
  | scheduleSteps (currentTime : ℚ) (fuel : ℕ)

/-- Dispatch a public sequencer operation. -/
def applySeqOp : SeqOp → SeqState → SeqState
  | SeqOp.play t, s => Sequencer.play s t
  | SeqOp.pause, s => Sequencer.pause s
  | SeqOp.stop, s => Sequencer.stop s
  | SeqOp.toggleRecord, s => Sequencer.toggleRecord s
  | SeqOp.setBPM b, s => Sequencer.setBPM s b
  | SeqOp.setTrackVolume tid v, s => Sequencer.setTrackVolume s tid v
  | SeqOp.toggleTrackMute tid, s => Sequencer.toggleTrackMute s tid
  | SeqOp.toggleTrackSolo tid, s => Sequencer.toggleTrackSolo s tid
  | SeqOp.toggleStep tid i, s => Sequencer.toggleStep s tid i
  | SeqOp.scheduleSteps t fuel, s => Sequencer.scheduleSteps s t fuel

theorem scheduleStepsAux_le (currentTime : ℚ) :
    ∀ (fuel : ℕ) (s : SeqState), 0 ≤ s.stepDuration →
      s.nextStepTime ≤ (scheduleStepsAux currentTime fuel s).nextStepTime
      ∧ (scheduleStepsAux currentTime fuel s).stepDuration = s.stepDuration := by
  intro fuel
  induction fuel with
  | zero => intro s _; exact ⟨le_refl _, rfl⟩
  | succ n ih =>
    intro s hd
    unfold scheduleStepsAux
    by_cases hc : s.nextStepTime ≤ currentTime + 1/10
    · rw [if_pos hc]
      have h := ih { s with currentStep := (s.currentStep + 1) % s.totalSteps,
                            nextStepTime := s.nextStepTime + s.stepDuration } hd
      have hstep : s.nextStepTime ≤ s.nextStepTime + s.stepDuration := le_add_of_nonneg_right hd
      exact ⟨le_trans hstep h.1, h.2⟩
    · rw [if_neg hc]
      exact ⟨le_refl _, rfl⟩

theorem toggleTrackSolo_timing (s : SeqState) (trackId : String) :
    (Sequencer.toggleTrackSolo s trackId).nextStepTime = s.nextStepTime
    ∧ (Sequencer.toggleTrackSolo s trackId).stepDuration = s.stepDuration := by
  rcases hfind : s.tracks.find? (fun t => t.id == trackId) with _ | tr
  · simp [Sequencer.toggleTrackSolo, hfind]
  · by_cases h : tr.solo = true <;> simp [Sequencer.toggleTrackSolo, hfind, h]

theorem toggleStep_timing (s : SeqState) (trackId : String) (stepIndex : ℤ) :
    (Sequencer.toggleStep s trackId stepIndex).nextStepTime = s.nextStepTime
    ∧ (Sequencer.toggleStep s trackId stepIndex).stepDuration = s.stepDuration := by
  rcases hap : s.activePattern with _ | pid
  · simp [Sequencer.toggleStep, hap]
  rcases hpat : s.patterns.lookup pid with _ | pat
  · simp [Sequencer.toggleStep, hap, hpat]
  rcases hsteps : pat.tracks.lookup trackId with _ | steps
  · simp [Sequencer.toggleStep, hap, hpat, hsteps]
  by_cases h : 0 ≤ stepIndex ∧ stepIndex < (steps.length : ℤ) <;>
    simp [Sequencer.toggleStep, hap, hpat, hsteps, h]

/-- C4: while `isPlaying` holds, no public operation of the sequencer
decreases `nextStepTime` — the lookahead loop only ever adds the (positive)
`stepDuration`, `setBPM`'s clamped BPM in [60, 200] keeps `stepDuration`
positive, `play` is a no-op on a playing sequencer, and every other operation
leaves the timing fields untouched. -/
theorem nextStepTime_monotone (s : SeqState) (op : SeqOp)
    (hplay : s.isPlaying = true) (hdur : 0 < s.stepDuration)
    (hspb : s.stepsPerBeat = 4) :
    s.nextStepTime ≤ (applySeqOp op s).nextStepTime
    ∧ 0 < (applySeqOp op s).stepDuration := by
  cases op with
  | play t =>
    simp [applySeqOp, Sequencer.play, hplay]
    exact hdur
  | pause => exact ⟨le_refl _, hdur⟩
  | stop => exact ⟨le_refl _, hdur⟩
  | toggleRecord => exact ⟨le_refl _, hdur⟩
  | setBPM b =>
    refine ⟨le_refl _, ?_⟩
    show 0 < 60 / (max 60 (min 200 b) * s.stepsPerBeat)
    rw [hspb]
    have hb : (0:ℚ) < max 60 (min 200 b) := lt_of_lt_of_le (by norm_num) (le_max_left _ _)
    positivity
  | setTrackVolume tid v => exact ⟨le_refl _, hdur⟩
  | toggleTrackMute tid => exact ⟨le_refl _, hdur⟩
  | toggleTrackSolo tid =>
    have h := toggleTrackSolo_timing s tid
    exact ⟨le_of_eq h.1.symm, h.2 ▸ hdur⟩
  | toggleStep tid i =>
    have h := toggleStep_timing s tid i
    exact ⟨le_of_eq h.1.symm, h.2 ▸ hdur⟩
  | scheduleSteps t fuel =>
    have h := scheduleStepsAux_le t fuel s (le_of_lt hdur)
    exact ⟨h.1, h.2 ▸ hdur⟩

/-- Witness for `nextStepTime_monotone`: a playing fresh sequencer, drained by
one lookahead invocation with fuel 3 at audio time 0, never moves
`nextStepTime` backwards, and its step duration stays positive. -/
theorem nextStepTime_monotone_witness :
    ({ initialSequencer with isPlaying := true } : SeqState).isPlaying = true
    ∧ (0:ℚ) < ({ initialSequencer with isPlaying := true } : SeqState).stepDuration
    ∧ ({ initialSequencer with isPlaying := true } : SeqState).stepsPerBeat = 4
    ∧ (({ initialSequencer with isPlaying := true } : SeqState).nextStepTime
        ≤ (applySeqOp (SeqOp.scheduleSteps 0 3) { initialSequencer with isPlaying := true }).nextStepTime
      ∧ 0 < (applySeqOp (SeqOp.scheduleSteps 0 3) { initialSequencer with isPlaying := true }).stepDuration) :=
  ⟨rfl, by norm_num [initialSequencer], rfl,
    nextStepTime_monotone { initialSequencer with isPlaying := true }
      (SeqOp.scheduleSteps 0 3) rfl (by norm_num [initialSequencer]) rfl⟩

/-- A sharpened pitch-class name. -/
def sharp (p : String) : String := p ++ "#"

/-- The 12 pitch-class names of `BaseInstrument.noteToFrequency`, C through B
with the five sharps interleaved (the source writes the sharps as literals
such as `'C#'`). -/
def noteNames : List String :=
  ["C", sharp "C", "D", sharp "D", "E", "F", sharp "F", "G", sharp "G", "A", sharp "A", "B"]

/-- `Array.prototype.indexOf` with its running index: the index of the first
occurrence of `s`, or -1 when `s` does not occur. -/
def jsIndexOfAux (s : String) : List String → ℤ → ℤ
  | [], _ => -1
  | x :: xs, n => if x == s then n else jsIndexOfAux s xs (n + 1)

/-- `noteNames.indexOf(noteName)`. -/
def jsIndexOf (l : List String) (s : String) : ℤ :=
  jsIndexOfAux s l 0

/-- `parseInt(note.slice(-1))` on the one-character slice: a decimal digit
parses to its value, anything else is NaN (modelled `none`). -/
def parseDigit (c : Char) : Option ℤ :=
  if c.isDigit then some ((c.toNat : ℤ) - 48) else none

/-- The equal-temperament formula
`440 * Math.pow(2, (octave - 4) + (noteIndex - 9) / 12)`. -/
noncomputable def noteFreqFormula (noteIndex octave : ℤ) : ℝ :=
  440 * (2:ℝ) ^ (((octave : ℝ) - 4) + ((noteIndex : ℝ) - 9) / 12)

/-- `BaseInstrument.noteToFrequency`: look up `note.slice(0, -1)` among the
pitch classes; `-1` (not found) falls back to 440 before the octave is used;
otherwise apply the formula to `parseInt(note.slice(-1))`.  A non-digit octave
character makes the JS arithmetic NaN, modelled as `none`. -/
noncomputable def noteToFrequency (note : String) : Option ℝ :=
  if jsIndexOf noteNames (note.dropRight 1) = -1 then some 440
  else (parseDigit note.back).map
    (fun octave => noteFreqFormula (jsIndexOf noteNames (note.dropRight 1)) octave)

/-- The one-character string for a decimal digit. -/
def digitString (d : ℕ) : String :=
  (Char.ofNat (48 + d)).toString

theorem noteParse_eval : ∀ i ∈ List.range 12, ∀ d ∈ List.range 10,
    jsIndexOf noteNames ((noteNames.getD i "" ++ digitString d).dropRight 1) = (i : ℤ)
    ∧ parseDigit ((noteNames.getD i "" ++ digitString d).back) = some (d : ℤ) := by
  decide

theorem jsIndexOfAux_eq_neg_one (s : String) :
    ∀ (l : List String) (n : ℤ), s ∉ l → jsIndexOfAux s l n = -1 := by
  intro l
  induction l with
  | nil => intro n _; rfl
  | cons x xs ih =>
    intro n hs
    have hx : (x == s) = false := by
      refine beq_eq_false_iff_ne.mpr ?_
      intro h
      exact hs (h ▸ List.mem_cons_self x xs)
    simp only [jsIndexOfAux, hx]
    exact ih (n + 1) (fun h => hs (List.mem_cons_of_mem x h))

/-- C3: for every pitch class at index `i` of the 12-class table followed by
an octave digit `d`, `noteToFrequency` returns
`440 * 2^((octave - 4) + (pitchIndex - 9) / 12)`; `noteToFrequency("A4")` is
exactly 440 and `noteToFrequency("C4")` is within 0.01 of 261.63; every note
string whose pitch-class part is not in the table yields 440. -/
theorem noteToFrequency_spec :
    (∀ (i d : ℕ), i < 12 → d ≤ 9 →
        noteToFrequency (noteNames.getD i "" ++ digitString d)
          = some (440 * (2:ℝ) ^ (((d : ℝ) - 4) + ((i : ℝ) - 9) / 12)))
    ∧ noteToFrequency "A4" = some 440
    ∧ (∃ f : ℝ, noteToFrequency "C4" = some f ∧ |f - 26163/100| ≤ 1/100)
    ∧ (∀ note : String, note.dropRight 1 ∉ noteNames → noteToFrequency note = some 440) := by
  have hgen : ∀ (i d : ℕ), i < 12 → d ≤ 9 →
      noteToFrequency (noteNames.getD i "" ++ digitString d)
        = some (440 * (2:ℝ) ^ (((d : ℝ) - 4) + ((i : ℝ) - 9) / 12)) := by
    intro i d hi hd
    have hparse := noteParse_eval i (List.mem_range.mpr hi) d (List.mem_range.mpr (by omega))
    have hne : ¬(((i : ℕ) : ℤ) = -1) := by omega
    unfold noteToFrequency
    rw [hparse.1, if_neg hne, hparse.2]
    simp only [Option.map_some']
    congr 1
  refine ⟨hgen, ?_, ?_, ?_⟩
  · -- A4
    have h := hgen 9 4 (by norm_num) (by norm_num)
    have hs : noteNames.getD 9 "" ++ digitString 4 = "A4" := by decide
    rw [hs] at h
    rw [h]
    have he : (((4:ℕ) : ℝ) - 4) + (((9:ℕ) : ℝ) - 9) / 12 = 0 := by push_cast; ring
    rw [he, Real.rpow_zero]
    norm_num
  · -- C4
    have h := hgen 0 4 (by norm_num) (by norm_num)
    have hs : noteNames.getD 0 "" ++ digitString 4 = "C4" := by decide
    rw [hs] at h
    refine ⟨440 * (2:ℝ) ^ ((((4:ℕ):ℝ) - 4) + (((0:ℕ):ℝ) - 9) / 12), h, ?_⟩
    have he : ((((4:ℕ)):ℝ) - 4) + ((((0:ℕ)):ℝ) - 9) / 12 = -(3/4) := by push_cast; ring
    rw [he]
    have hx : (2:ℝ) ^ (-((3:ℝ)/4)) = ((2:ℝ) ^ ((3:ℝ)/4))⁻¹ := Real.rpow_neg (by norm_num) _
    set x : ℝ := (2:ℝ) ^ ((3:ℝ)/4) with hxdef
    have hxpos : 0 < x := Real.rpow_pos_of_pos (by norm_num) _
    have hx4 : x ^ (4:ℕ) = 8 := by
      rw [hxdef, ← Real.rpow_natCast ((2:ℝ) ^ ((3:ℝ)/4)) 4,
        ← Real.rpow_mul (by norm_num : (0:ℝ) ≤ 2)]
      norm_num
    have hlb : (168171/100000 : ℝ) ≤ x := by
      by_contra hcon
      push_neg at hcon
      have h4 : x ^ (4:ℕ) < (168171/100000 : ℝ) ^ (4:ℕ) :=
        pow_lt_pow_left₀ hcon (le_of_lt hxpos) (by norm_num)
      rw [hx4] at h4
      norm_num at h4
    have hub : x ≤ (168182/100000 : ℝ) := by
      by_contra hcon
      push_neg at hcon
      have h4 : (168182/100000 : ℝ) ^ (4:ℕ) < x ^ (4:ℕ) :=
        pow_lt_pow_left₀ hcon (by norm_num) (by norm_num)
      rw [hx4] at h4
      norm_num at h4
    rw [hx]
    have hfub : 440 * x⁻¹ ≤ 440 / (168171/100000 : ℝ) := by
      rw [div_eq_mul_inv]
      have := inv_anti₀ (by norm_num : (0:ℝ) < 168171/100000) hlb
      nlinarith
    have hflb : 440 / (168182/100000 : ℝ) ≤ 440 * x⁻¹ := by
      rw [div_eq_mul_inv]
      have := inv_anti₀ hxpos hub
      nlinarith
    rw [abs_le]
    constructor
    · have : (440:ℝ) / (168182/100000) = 44000000/168182 := by norm_num
      nlinarith
    · have : (440:ℝ) / (168171/100000) = 44000000/168171 := by norm_num
      nlinarith
  · -- unknown pitch class
    intro note hnot
    have h : jsIndexOf noteNames (note.dropRight 1) = -1 :=
      jsIndexOfAux_eq_neg_one _ _ _ hnot
    unfold noteToFrequency
    rw [h, if_pos rfl]

/-- Witness for `noteToFrequency_spec`: the pitch class at index 9 ("A") with
octave digit 4 satisfies the formula clause, and "X4" exercises the
unknown-pitch-class fallback. -/
theorem noteToFrequency_spec_witness :
    ((9:ℕ) < 12 ∧ (4:ℕ) ≤ 9
      ∧ noteToFrequency (noteNames.getD 9 "" ++ digitString 4)
          = some (440 * (2:ℝ) ^ ((((4:ℕ) : ℝ) - 4) + (((9:ℕ) : ℝ) - 9) / 12)))
    ∧ ("X4".dropRight 1 ∉ noteNames ∧ noteToFrequency "X4" = some 440) :=
  ⟨⟨by norm_num, by norm_num, noteToFrequency_spec.1 9 4 (by norm_num) (by norm_num)⟩,
    by decide, noteToFrequency_spec.2.2.2 "X4" (by decide)⟩

/-- The `AudioEngine` instance state (audio-node handles carry no logical
state beyond what is recorded here; `animationFrame` models
`animationFrame !== null`). -/
structure EngineState where
  isInitialized : Bool
  isPlaying : Bool
  currentTime : ℚ
  startTime : ℚ
  animationFrame : Bool
  masterVolume : ℚ
  deriving DecidableEq

/-- An `AudioEngine` whose `initAudioContext()` succeeded. -/
def initialAudioEngine : EngineState :=
  { isInitialized := true, isPlaying := false, currentTime := 0, startTime := 0,
    animationFrame := false, masterVolume := 4/5 }

/-- `AudioEngine.startPlayback`: guard on initialization, mark playing, record
the start time and start the animation loop.  `now` is the audio-clock reading
(`audioContext.currentTime`). -/
def AudioEngine.startPlayback (e : EngineState) (now : ℚ) : EngineState :=
  if e.isInitialized then
    { e with isPlaying := true, startTime := now, currentTime := 0, animationFrame := true }
  else e

/-- `AudioEngine.stopPlayback`: clear the playing flag, reset the displayed
time and cancel the animation frame.  Nothing else is touched. -/
def AudioEngine.stopPlayback (e : EngineState) : EngineState :=
  { e with isPlaying := false, currentTime := 0, animationFrame := false }

/-- `AudioEngine.pausePlayback`: clear the playing flag and cancel the
animation frame. -/
def AudioEngine.pausePlayback (e : EngineState) : EngineState :=
  { e with isPlaying := false, animationFrame := false }

/-- One live synthesis Voice as created by an instrument `playNote`: the
automation scheduled on its gain node and oscillator at trigger time.
`envelopeCancelled` records whether `gain.cancelScheduledValues` was ever
invoked for it (only `stopNote`/`stopAllNotes` do that) and `sourceStopped`
whether an early `source.stop()` was issued. -/
structure Voice where
  note : String
  startTime : ℚ
  scheduledStopTime : ℚ
  envelopeCancelled : Bool
  sourceStopped : Bool
  deriving DecidableEq

/-- The whole running system: sequencer, audio engine and every Voice whose
synthesis graph has been scheduled. -/
structure World where
  seq : SeqState
  engine : EngineState
  voices : List Voice
  deriving DecidableEq

/-- JavaScript `duration || dflt`: `null` (absent) and `0` are falsy. -/
def jsOr (v : Option ℚ) (dflt : ℚ) : ℚ :=
  match v with
  | none => dflt
  | some x => if x = 0 then dflt else x

/-- `PianoInstrument.playNote(note, velocity, duration)`: builds the
oscillator/gain graph, schedules the full attack/decay/release envelope at
trigger time with `releaseTime = duration || 2.0`, starts the oscillator at
`now` and schedules its stop at `now + releaseTime`, and registers the voice
in `activeNotes`.  No handle for later cancellation is retained anywhere
else. -/
def PianoInstrument.playNote (w : World) (note : String) (velocity : ℚ)
    (duration : Option ℚ) (now : ℚ) : World :=
  let releaseTime := jsOr duration 2
  { w with voices := w.voices ++
      [{ note := note, startTime := now, scheduledStopTime := now + releaseTime,
         envelopeCancelled := false, sourceStopped := false }] }

/-- `Sequencer.play` at system level: seed the sequencer and start the audio
engine. -/
def World.play (w : World) (now : ℚ) : World :=
  if w.seq.isPlaying then w
  else { w with seq := Sequencer.play w.seq now,
                engine := AudioEngine.startPlayback w.engine now }

/-- `Sequencer.stop` at system level: `isPlaying = false`,
`currentStep = 0`, `audioEngine.stopPlayback()`, `stopScheduler()` and UI
updates.  No code path reaches `InstrumentManager.stopAllNotes` or any
instrument's `stopNote`: the scheduled envelopes and oscillator stop times of
live voices are left exactly in place. -/
def World.stopTransport (w : World) : World :=
  { w with seq := Sequencer.stop w.seq,
           engine := AudioEngine.stopPlayback w.engine }

/-- The initial system. -/
def initialWorld : World :=
  { seq := initialSequencer, engine := initialAudioEngine, voices := [] }

/-- C1 fails on the code: start playback at audio time 0, trigger one piano
note with the default duration (so its envelope and oscillator stop are
scheduled out to t = 2.0), then call `stop()`.  The voice list is untouched:
the voice's scheduled automation is not cancelled, its source is not stopped,
and its scheduled stop time lies beyond the stop point (t = 0.5), so it keeps
sounding past `stop()` — the retract-all-envelopes requirement is not
implemented. -/
theorem stop_leaves_live_voices :
    (World.stopTransport (PianoInstrument.playNote (World.play initialWorld 0) "C4" (4/5) none 0)).voices
      = (PianoInstrument.playNote (World.play initialWorld 0) "C4" (4/5) none 0).voices
    ∧ (World.stopTransport (PianoInstrument.playNote (World.play initialWorld 0) "C4" (4/5) none 0)).voices
      = [{ note := "C4", startTime := 0, scheduledStopTime := 2,
           envelopeCancelled := false, sourceStopped := false }]
    ∧ (1/2 : ℚ) < (2 : ℚ) := by
  refine ⟨rfl, ?_, by norm_num⟩
  norm_num [World.stopTransport, PianoInstrument.playNote, World.play, initialWorld,
    initialSequencer, initialAudioEngine, Sequencer.play, AudioEngine.startPlayback,
    AudioEngine.stopPlayback, Sequencer.stop, jsOr]

/-- One of the nine pre-rendered drum buffers, identified by its voice name
and carrying the duration (in seconds) its `create*Sample` routine renders. -/
structure DrumBuffer where
  name : String
  durationSeconds : ℚ
  deriving DecidableEq

/-- `DrumsInstrument.drumSamples` as built by `initDrumSamples`: kick 0.5 s,
snare 0.3 s, hihat 0.1 s, openhat 0.2 s, crash 1.0 s, ride 0.8 s and three
0.4 s toms. -/
def drumSamples : List (String × DrumBuffer) :=
  [("kick", { name := "kick", durationSeconds := 1/2 }),
   ("snare", { name := "snare", durationSeconds := 3/10 }),
   ("hihat", { name := "hihat", durationSeconds := 1/10 }),
   ("openhat", { name := "openhat", durationSeconds := 1/5 }),
   ("crash", { name := "crash", durationSeconds := 1 }),
   ("ride", { name := "ride", durationSeconds := 4/5 }),
   ("tom1", { name := "tom1", durationSeconds := 2/5 }),
   ("tom2", { name := "tom2", durationSeconds := 2/5 }),
   ("tom3", { name := "tom3", durationSeconds := 2/5 })]

/-- The fixed note → drum-voice table of `DrumsInstrument.playNote`. -/
def drumMap : List (String × String) :=
  [("C4", "kick"), ("D4", "snare"), ("E4", "hihat"), ("F4", "openhat"),
   ("G4", "crash"), ("A4", "ride"), ("B4", "tom1"), ("C5", "tom2"), ("D5", "tom3")]

/-- The buffer-source playback `DrumsInstrument.playNote` creates:
`source.start(now)` is issued with no scheduled stop, so the sample plays its
full pre-rendered length. -/
structure DrumPlayResult where
  drumType : String
  buffer : DrumBuffer
  gain : ℚ
  startTime : ℚ
  scheduledStop : Option ℚ
  deriving DecidableEq

/-- The names of the properties every plain JavaScript object literal
inherits from `Object.prototype`.  A property read with one of these keys on
an object that does not declare it as an own property yields the inherited
function (or, for `__proto__`, `Object.prototype` itself) — a truthy value,
not `undefined`. -/
def objectProtoKeys : List String :=
  ["constructor", "hasOwnProperty", "isPrototypeOf", "propertyIsEnumerable",
   "toLocaleString", "toString", "valueOf", "__proto__",
   "__defineGetter__", "__defineSetter__", "__lookupGetter__", "__lookupSetter__"]

/-- The value of `dict[key]` on a string-valued object literal: the own
property when declared, else the truthy function/object inherited from
`Object.prototype` when `key` names one, else `undefined`. -/
inductive JsPropValue : Type
  | str (s : String)
  | inherited
  | undef
  deriving DecidableEq

/-- Property read `dict[key]` including the prototype chain (own properties
shadow inherited ones). -/
def jsGetProp (dict : List (String × String)) (key : String) : JsPropValue :=
  match dict.lookup key with
  | some v => JsPropValue.str v
  | none => if key ∈ objectProtoKeys then JsPropValue.inherited else JsPropValue.undef

/-- `drumMap[note] || 'kick'`: only `undefined` is falsy here — the nine own
values are nonempty strings and the inherited prototype members are
functions/objects, all truthy. -/
def jsOrKick (v : JsPropValue) : JsPropValue :=
  match v with
  | JsPropValue.undef => JsPropValue.str "kick"
  | x => x

/-- `DrumsInstrument.playNote(note, velocity, duration)`: select the voice by
`drumMap[note] || 'kick'` — a property read on an object literal, so a `note`
naming an `Object.prototype` member (e.g. `"toString"`) yields the inherited
truthy function and defeats the `|| 'kick'` fallback; `this.drumSamples[...]`
with that function as key coerces it to its source string, which is no
property of `drumSamples`, so `if (!sample) return null` fires.  Otherwise
start the buffer at `now` with gain `velocity * this.volume`.  The `duration`
argument is never read. -/
def DrumsInstrument.playNote (volume : ℚ) (note : String) (velocity : ℚ)
    (duration : Option ℚ) (now : ℚ) : Option DrumPlayResult :=
  match jsOrKick (jsGetProp drumMap note) with
  | JsPropValue.str name =>
    match drumSamples.lookup name with
    | none => none
    | some sample =>
      some { drumType := name, buffer := sample, gain := velocity * volume,
             startTime := now, scheduledStop := none }
  | JsPropValue.inherited => none
  | JsPropValue.undef => none

/-- Counterexample to C10 as stated: `"toString"` is not a key of the drum
table, yet `playNote` does not fall back to the kick sample — the inherited
`Object.prototype.toString` is truthy, `drumSamples` has no sample under the
coerced function key, and the call returns `null` (silence). -/
theorem drums_playNote_counterexample :
    drumMap.lookup "toString" = none
    ∧ DrumsInstrument.playNote (4/5) "toString" (4/5) none 0 = none := by
  exact ⟨rfl, rfl⟩

/-- C10 amended: `DrumsInstrument.playNote` selects its percussion voice by
the fixed table {C4→kick, D4→snare, E4→hihat, F4→openhat, G4→crash, A4→ride,
B4→tom1, C5→tom2, D5→tom3}; a note outside the table falls back to the kick
sample unless the note names an `Object.prototype` property (such as
`"toString"`), in which case the inherited truthy value defeats the
`|| 'kick'` fallback and the call returns `null` (silence); no stop is ever
scheduled, so a played sample runs its full pre-rendered length; and the
`duration` argument is ignored entirely. -/
theorem drums_playNote_amended (note : String) (velocity volume now : ℚ) (duration : Option ℚ) :
    ((DrumsInstrument.playNote volume note velocity duration now).map
        (fun r => r.drumType))
      = (if note = "C4" then some "kick" else if note = "D4" then some "snare"
          else if note = "E4" then some "hihat" else if note = "F4" then some "openhat"
          else if note = "G4" then some "crash" else if note = "A4" then some "ride"
          else if note = "B4" then some "tom1" else if note = "C5" then some "tom2"
          else if note = "D5" then some "tom3"
          else if note ∈ objectProtoKeys then none else some "kick")
    ∧ ((DrumsInstrument.playNote volume note velocity duration now).bind
        (fun r => r.scheduledStop)) = none
    ∧ DrumsInstrument.playNote volume note velocity duration now
        = DrumsInstrument.playNote volume note velocity none now := by
  refine ⟨?_, ?_, rfl⟩ <;>
  · by_cases h1 : note = "C4"
    · subst h1; rfl
    by_cases h2 : note = "D4"
    · subst h2; rfl
    by_cases h3 : note = "E4"
    · subst h3; rfl
    by_cases h4 : note = "F4"
    · subst h4; rfl
    by_cases h5 : note = "G4"
    · subst h5; rfl
    by_cases h6 : note = "A4"
    · subst h6; rfl
    by_cases h7 : note = "B4"
    · subst h7; rfl
    by_cases h8 : note = "C5"
    · subst h8; rfl
    by_cases h9 : note = "D5"
    · subst h9; rfl
    by_cases hp : note ∈ objectProtoKeys <;>
      simp [DrumsInstrument.playNote, jsGetProp, jsOrKick, drumMap, drumSamples,
        List.lookup, h1, h2, h3, h4, h5, h6, h7, h8, h9, hp,
        beq_eq_false_iff_ne.mpr h1, beq_eq_false_iff_ne.mpr h2, beq_eq_false_iff_ne.mpr h3,
        beq_eq_false_iff_ne.mpr h4, beq_eq_false_iff_ne.mpr h5, beq_eq_false_iff_ne.mpr h6,
        beq_eq_false_iff_ne.mpr h7, beq_eq_false_iff_ne.mpr h8, beq_eq_false_iff_ne.mpr h9]

/-- `globalEffects.reverb` parameter record. -/
structure ReverbParams where
  enabled : Bool
  wet : ℚ
  roomSize : ℚ
  damping : ℚ
  deriving DecidableEq

/-- `globalEffects.delay` parameter record. -/
structure DelayParams where
  enabled : Bool
  time : ℚ
  feedback : ℚ
  wet : ℚ
  deriving DecidableEq

/-- `globalEffects.distortion` parameter record. -/
structure DistortionParams where
  enabled : Bool
  amount : ℚ
  tone : ℚ
  deriving DecidableEq

/-- `globalEffects.filter` parameter record (the `type` string is kept as
data). -/
structure FilterParams where
  enabled : Bool
  frequency : ℚ
  resonance : ℚ
  type : String
  deriving DecidableEq

/-- The `globalEffects` dictionary of `EffectsManager`. -/
structure GlobalEffects where
  reverb : ReverbParams
  delay : DelayParams
  distortion : DistortionParams
  filter : FilterParams
  deriving DecidableEq

/-- The audio-node values owned by the four effect units; gain values are the
targets of the corresponding `setTargetAtTime` calls (the eventual smoothed
value), `distortionCurveAmount` is the `amount` baked into the waveshaper
curve by `createDistortionCurve`. -/
structure EffectsNodes where
  reverbWet : ℚ
  reverbDry : ℚ
  delayTime : ℚ
  delayFeedbackGain : ℚ
  delayWet : ℚ
  delayDry : ℚ
  distortionCurveAmount : ℚ
  filterFrequency : ℚ
  deriving DecidableEq

/-- An `EffectsManager` instance: the parameter dictionary plus its nodes. -/
structure EffectsState where
  globalEffects : GlobalEffects
  nodes : EffectsNodes
  deriving DecidableEq

/-- The `globalEffects` defaults of the `EffectsManager` constructor. -/
def initialGlobalEffects : GlobalEffects :=
  { reverb := { enabled := false, wet := 1/5, roomSize := 4/5, damping := 3/10 },
    delay := { enabled := false, time := 3/10, feedback := 2/5, wet := 3/10 },
    distortion := { enabled := false, amount := 1/10, tone := 1/2 },
    filter := { enabled := false, frequency := 1000, resonance := 1, type := "lowpass" } }

/-- The node values `initEffects` installs: `createGlobalReverb` sets the wet
gain to `wet` and the dry gain to 0.8; `createGlobalDelay` sets the delay
time, the feedback-loop gain to `feedback`, the wet gain to `wet` and the dry
gain to `1 - wet`; `createGlobalDistortion` bakes the default `amount` into
the curve; `createGlobalFilter` applies the filter frequency. -/
def initialEffects : EffectsState :=
  { globalEffects := initialGlobalEffects,
    nodes := { reverbWet := 1/5, reverbDry := 4/5,
               delayTime := 3/10, delayFeedbackGain := 2/5,
               delayWet := 3/10, delayDry := 1 - 3/10,
               distortionCurveAmount := 1/10, filterFrequency := 1000 } }

/-- `EffectsManager.applyEffectParam`: the switch over effect and parameter
names.  Reverb `wet` drives the wet gain to `value` and the dry gain to
`1 - value`; delay `time`/`feedback`/`wet` drive the respective node values —
`feedback` sets the feedback-loop gain to `value` with no clamping; distortion
`amount` re-runs `createDistortionCurve`, which reads
`this.globalEffects.distortion.amount` (not `value`); filter reacts only to
the name `freq`, scaling by 2000.  Unknown effect names return early. -/
def EffectsManager.applyEffectParam (st : EffectsState) (effectName paramName : String)
    (value : ℚ) : EffectsState :=
  if effectName = "reverb" then
    if paramName = "wet" then
      { st with nodes := { st.nodes with reverbWet := value, reverbDry := 1 - value } }
    else st
  else if effectName = "delay" then
    if paramName = "time" then
      { st with nodes := { st.nodes with delayTime := value } }
    else if paramName = "feedback" then
      { st with nodes := { st.nodes with delayFeedbackGain := value } }
    else if paramName = "wet" then
      { st with nodes := { st.nodes with delayWet := value, delayDry := 1 - value } }
    else st
  else if effectName = "distortion" then
    if paramName = "amount" then
      { st with nodes := { st.nodes with
          distortionCurveAmount := st.globalEffects.distortion.amount } }
    else st
  else if effectName = "filter" then
    if paramName = "freq" then
      { st with nodes := { st.nodes with filterFrequency := value * 2000 } }
    else st
  else st

/-- The dynamic write `this.globalEffects[effectName][paramName] = value` for
the numeric parameters the dictionary declares.  A `paramName` the effect does
not declare creates a fresh JS property no modelled reader ever observes, so
it leaves the record unchanged (the filter's `type` is a string and is never
routed through this numeric path). -/
def setGlobalParam (g : GlobalEffects) (effectName paramName : String) (value : ℚ) :
    GlobalEffects :=
  if effectName = "reverb" then
    if paramName = "wet" then { g with reverb := { g.reverb with wet := value } }
    else if paramName = "roomSize" then { g with reverb := { g.reverb with roomSize := value } }
    else if paramName = "damping" then { g with reverb := { g.reverb with damping := value } }
    else g
  else if effectName = "delay" then
    if paramName = "time" then { g with delay := { g.delay with time := value } }
    else if paramName = "feedback" then { g with delay := { g.delay with feedback := value } }
    else if paramName = "wet" then { g with delay := { g.delay with wet := value } }
    else g
  else if effectName = "distortion" then
    if paramName = "amount" then { g with distortion := { g.distortion with amount := value } }
    else if paramName = "tone" then { g with distortion := { g.distortion with tone := value } }
    else g
  else if effectName = "filter" then
    if paramName = "frequency" then { g with filter := { g.filter with frequency := value } }
    else if paramName = "resonance" then { g with filter := { g.filter with resonance := value } }
    else g
  else g

/-- `param.split('-')` on the character sequence: cut at every dash. -/
def splitDashAux : List Char → List Char → List String
  | [], acc => [String.mk acc.reverse]
  | c :: cs, acc =>
    if c = '-' then String.mk acc.reverse :: splitDashAux cs []
    else splitDashAux cs (c :: acc)

/-- `param.split('-')`. -/
def jsSplitDash (s : String) : List String :=
  splitDashAux s.data []

/-- `EffectsManager.updateEffectParam`: split `param` on `-` into effect and
parameter names (`const [effectName, paramName] = param.split('-')`), return
early unless `globalEffects` has the effect, record the value in
`globalEffects` and apply it to the nodes. -/
def EffectsManager.updateEffectParam (st : EffectsState) (param : String) (value : ℚ) :
    EffectsState :=
  let parts := jsSplitDash param
  let effectName := parts.getD 0 ""
  let paramName := parts.getD 1 ""
  if effectName = "reverb" ∨ effectName = "delay" ∨ effectName = "distortion"
      ∨ effectName = "filter" then
    EffectsManager.applyEffectParam
      { st with globalEffects := setGlobalParam st.globalEffects effectName paramName value }
      effectName paramName value
  else st

/-- `EffectsManager.loadEffectsData`: replace `globalEffects` with the
persisted dictionary, then reapply every parameter except `enabled` through
`applyEffectParam` (object keys iterate in declaration order; the filter's
persisted parameter names `frequency`/`resonance`/`type` match no case of the
switch, so those reapplications are no-ops). -/
def EffectsManager.loadEffectsData (st : EffectsState) (g : GlobalEffects) : EffectsState :=
  let st1 := { st with globalEffects := g }
  let st2 := EffectsManager.applyEffectParam st1 "reverb" "wet" g.reverb.wet
  let st3 := EffectsManager.applyEffectParam st2 "reverb" "roomSize" g.reverb.roomSize
  let st4 := EffectsManager.applyEffectParam st3 "reverb" "damping" g.reverb.damping
  let st5 := EffectsManager.applyEffectParam st4 "delay" "time" g.delay.time
  let st6 := EffectsManager.applyEffectParam st5 "delay" "feedback" g.delay.feedback
  let st7 := EffectsManager.applyEffectParam st6 "delay" "wet" g.delay.wet
  let st8 := EffectsManager.applyEffectParam st7 "distortion" "amount" g.distortion.amount
  let st9 := EffectsManager.applyEffectParam st8 "distortion" "tone" g.distortion.tone
  let st10 := EffectsManager.applyEffectParam st9 "filter" "frequency" g.filter.frequency
  EffectsManager.applyEffectParam st10 "filter" "resonance" g.filter.resonance

/-- C6 fails on the code: the construction-time feedback is 0.4 < 1, but
nothing ever clamps the coefficient — `updateEffectParam("delay-feedback",
1.5)` and `loadEffectsData` with a persisted feedback of 1.5 both drive the
feedback-loop gain to 1.5 ≥ 1, so the claimed `feedback < 1` invariant does
not hold after every operation that can set it. -/
theorem delay_feedback_unclamped :
    initialEffects.nodes.delayFeedbackGain = 2/5
    ∧ ((2:ℚ)/5 < 1)
    ∧ (EffectsManager.updateEffectParam initialEffects "delay-feedback"
        (3/2)).nodes.delayFeedbackGain = 3/2
    ∧ (EffectsManager.loadEffectsData initialEffects
        { initialGlobalEffects with
          delay := { initialGlobalEffects.delay with feedback := 3/2 } }).nodes.delayFeedbackGain
      = 3/2
    ∧ ¬((3:ℚ)/2 < 1) := by
  refine ⟨rfl, by norm_num, ?_, ?_, by norm_num⟩
  · rfl
  · rfl

/-- The shape of a persisted sequencer payload as `loadSequencerData` reads
it: each field may be absent; each item the `Map` constructor iterates over is
either an entry pair or (modelled by `none`) a malformed non-entry value. -/
structure RawSequencerData where
  bpm : Option ℚ
  tracks : Option (List Track)
  patterns : Option (List (Option (String × Pattern)))
  activePattern : Option String

/-- `new Map(entries)`: throws a `TypeError` (modelled `none`) as soon as an
iterated item is not an entry object. -/
def jsNewMap : List (Option (String × Pattern)) → Option (List (String × Pattern))
  | [] => some []
  | none :: _ => none
  | some kv :: rest => (jsNewMap rest).map (fun l => kv :: l)

/-- `if (data.activePattern) this.activePattern = data.activePattern`
(absent and the empty string are falsy). -/
def applyActivePattern (s : SeqState) (ap : Option String) : SeqState :=
  match ap with
  | none => s
  | some a => if a = "" then s else { s with activePattern := some a }

/-- `Sequencer.loadSequencerData`: apply `setBPM` when `data.bpm` is truthy,
assign `data.tracks` when present (arrays are truthy), then build
`new Map(data.patterns)` — which can throw.  The Boolean records whether the
call ran to completion; when it is `false` the thrown `TypeError` propagated
to the caller with every assignment made so far retained. -/
def Sequencer.loadSequencerData (s : SeqState) (data : RawSequencerData) :
    SeqState × Bool :=
  let s1 := match data.bpm with
    | none => s
    | some b => if b = 0 then s else Sequencer.setBPM s b
  let s2 := match data.tracks with
    | none => s1
    | some ts => { s1 with tracks := ts }
  match data.patterns with
  | none => (applyActivePattern s2 data.activePattern, true)
  | some entries =>
    match jsNewMap entries with
    | none => (s2, false)
    | some m => (applyActivePattern { s2 with patterns := m } data.activePattern, true)

/-- `MusicFlowApp.loadProject` restricted to the sequencer payload: the body
runs inside `try { ... } catch { showError('recoverable') }`, so a load
failure is caught at this boundary, reported to the user, and the app
continues with whatever state `loadSequencerData` left behind. -/
def MusicFlowApp.loadProject (s : SeqState) (sequencerData : Option RawSequencerData) :
    SeqState × Bool :=
  match sequencerData with
  | none => (s, true)
  | some raw => Sequencer.loadSequencerData s raw

theorem jsNewMap_eq_none (entries : List (Option (String × Pattern)))
    (h : none ∈ entries) : jsNewMap entries = none := by
  induction entries with
  | nil => cases h
  | cons e rest ih =>
    cases e with
    | none => rfl
    | some kv =>
      rcases List.mem_cons.mp h with h1 | h2
      · cases h1
      · simp [jsNewMap, ih h2]

/-- A malformed persisted payload: a bpm of 150 followed by a patterns array
whose single item is not an entry object. -/
def loadCexData : RawSequencerData :=
  { bpm := some 150, tracks := none, patterns := some [none], activePattern := none }

/-- C5 counterexample: loading `loadCexData` over the fresh sequencer fails
(`new Map` throws on the malformed entry), yet the in-memory state is not left
untouched — the bpm was already updated from 120 to 150 (and `stepDuration`
recomputed) before the failure. -/
theorem loadSequencerData_counterexample :
    (Sequencer.loadSequencerData initialSequencer loadCexData).2 = false
    ∧ initialSequencer.bpm = 120
    ∧ (Sequencer.loadSequencerData initialSequencer loadCexData).1.bpm = 150
    ∧ (Sequencer.loadSequencerData initialSequencer loadCexData).1.stepDuration = 1/10 := by
  refine ⟨rfl, rfl, ?_, ?_⟩ <;>
    norm_num [Sequencer.loadSequencerData, loadCexData, Sequencer.setBPM, jsNewMap,
      initialSequencer]

/-- C5 amended: a malformed patterns payload makes `loadSequencerData` fail;
the failure is caught at the `loadProject` boundary and reported as
recoverable, and the pattern store and active-pattern id are left untouched —
but the state is only partially protected: `tracks` (and, when `data.bpm` is
present and truthy, `bpm`/`stepDuration`) keep the values assigned before the
failure. -/
theorem loadSequencerData_failure (s : SeqState) (raw : RawSequencerData)
    (entries : List (Option (String × Pattern)))
    (hp : raw.patterns = some entries) (hbad : none ∈ entries) :
    (Sequencer.loadSequencerData s raw).2 = false
    ∧ (MusicFlowApp.loadProject s (some raw)).2 = false
    ∧ (Sequencer.loadSequencerData s raw).1.patterns = s.patterns
    ∧ (Sequencer.loadSequencerData s raw).1.activePattern = s.activePattern
    ∧ (Sequencer.loadSequencerData s raw).1.tracks = raw.tracks.getD s.tracks
    ∧ (raw.bpm = none →
        (Sequencer.loadSequencerData s raw).1.bpm = s.bpm
        ∧ (Sequencer.loadSequencerData s raw).1.stepDuration = s.stepDuration) := by
  have hjs : jsNewMap entries = none := jsNewMap_eq_none entries hbad
  rcases hb : raw.bpm with _ | b <;> rcases ht : raw.tracks with _ | ts
  · simp [Sequencer.loadSequencerData, MusicFlowApp.loadProject, hp, hjs, hb, ht]
  · simp [Sequencer.loadSequencerData, MusicFlowApp.loadProject, hp, hjs, hb, ht]
  · by_cases h0 : b = 0 <;>
      simp [Sequencer.loadSequencerData, MusicFlowApp.loadProject, hp, hjs, hb, ht, h0,
        Sequencer.setBPM]
  · by_cases h0 : b = 0 <;>
      simp [Sequencer.loadSequencerData, MusicFlowApp.loadProject, hp, hjs, hb, ht, h0,
        Sequencer.setBPM]

/-- Witness for `loadSequencerData_failure` at the fresh sequencer and the
malformed payload `loadCexData`. -/
theorem loadSequencerData_failure_witness :
    loadCexData.patterns = some [none]
    ∧ (none ∈ ([none] : List (Option (String × Pattern))))
    ∧ ((Sequencer.loadSequencerData initialSequencer loadCexData).2 = false
      ∧ (MusicFlowApp.loadProject initialSequencer (some loadCexData)).2 = false
      ∧ (Sequencer.loadSequencerData initialSequencer loadCexData).1.patterns
          = initialSequencer.patterns
      ∧ (Sequencer.loadSequencerData initialSequencer loadCexData).1.activePattern
          = initialSequencer.activePattern
      ∧ (Sequencer.loadSequencerData initialSequencer loadCexData).1.tracks
          = loadCexData.tracks.getD initialSequencer.tracks
      ∧ (loadCexData.bpm = none →
          (Sequencer.loadSequencerData initialSequencer loadCexData).1.bpm
            = initialSequencer.bpm
          ∧ (Sequencer.loadSequencerData initialSequencer loadCexData).1.stepDuration
            = initialSequencer.stepDuration)) :=
  ⟨rfl, by simp,
    loadSequencerData_failure initialSequencer loadCexData [none] rfl (by simp)⟩
